import Mathlib

/-!
# Document API routable factories (protocol generation 5.0)

A shallow embedding of `documentapi/messagebus/routablefactories50.h`:
the scope-bound approximate-size setter, the `decodeMessage` template, the
`doDecode` overrides of the put, remove and update factories, and the
version-5.0 wire primitives, which forward to the version-4.2 ones.  What the
header only declares (the version-4.2 primitives, the byte buffers, `encode`
and `decode` of the factory bases, the schema catalog, the bucket-space hooks,
the registry) is modelled from the specification and marked as such.  The helpers and the two test bodies of
`handle_recorder_test.cpp` are embedded over a model of the recorder, and the
two copy tests of `hashtable_test.cpp` over a model of the hash table.

Machine integers are natural numbers or integers with explicit reductions
modulo `2^32` and `2^64`.  Mutation through C++ references is explicit state
passing, and a C++ exception is a value carried next to the state that the
callee left behind.
-/

namespace Vespa

/-! ## Byte buffers -/

/-- Modelled from the spec: `document::ByteBuffer` (its header is not among the
sources), the "byte cursor (read-only view + position)" of the external
interfaces.  `data` is the whole underlying byte sequence, `pos` the read
position that `getPos()` reports as a `size_t`. -/
structure ByteBuffer where
  data : List Nat
  pos : Nat
deriving DecidableEq, Repr

namespace ByteBuffer

/-- Modelled from the spec: `ByteBuffer::getPos()`, the read position. -/
def getPos (b : ByteBuffer) : Nat := b.pos

/-- Modelled from the spec: `ByteBuffer::getRemaining()`, the bytes between the
read position and the end of the buffer. -/
def getRemaining (b : ByteBuffer) : Nat := b.data.length - b.pos

/-- Modelled from the spec: `ByteBuffer::incPos(n)`, the cursor moved forward
over `n` bytes that the caller has established to remain. -/
def incPos (b : ByteBuffer) (n : Nat) : ByteBuffer := { b with pos := b.pos + n }

end ByteBuffer

/-- Modelled from the spec: the lower-level failure conditions of a read
(section 7, malformed input): insufficient bytes, an invalid length in front
of a string, and an unresolvable schema reference. -/
inductive DecodeError where
  | bufferOutOfBounds
  | invalidLength
  | unresolvableSchema
deriving DecidableEq, Repr

/-- A read on a byte buffer: the value or the exception, and the buffer as the
read left it. -/
abbrev Read (ε α : Type) : Type := ByteBuffer → Except ε α × ByteBuffer

namespace ByteBuffer

/-- Modelled from the spec: reading `n` raw bytes at the read position; the
read fails, leaving the position alone, when fewer than `n` bytes remain
("never reads past the declared buffer bounds"). -/
def getBytes (b : ByteBuffer) (n : Nat) : Except DecodeError (List Nat) × ByteBuffer :=
  if n ≤ b.getRemaining then (Except.ok ((b.data.drop b.pos).take n), b.incPos n)
  else (Except.error DecodeError.bufferOutOfBounds, b)

end ByteBuffer

/-- The signed reading of a 32-bit pattern (`int32_t`). -/
def toInt32 (n : Nat) : Int :=
  if n % 2 ^ 32 < 2 ^ 31 then ((n % 2 ^ 32 : Nat) : Int) else ((n % 2 ^ 32 : Nat) : Int) - 2 ^ 32

/-- The signed reading of a 64-bit pattern (`int64_t`). -/
def toInt64 (n : Nat) : Int :=
  if n % 2 ^ 64 < 2 ^ 63 then ((n % 2 ^ 64 : Nat) : Int) else ((n % 2 ^ 64 : Nat) : Int) - 2 ^ 64

/-- The unsigned 32-bit pattern of an integer (`static_cast<uint32_t>`). -/
def toUInt32 (i : Int) : Nat := (i % 2 ^ 32).toNat

/-- The number written by a run of bytes, most significant byte first. -/
def beValue (bs : List Nat) : Nat := bs.foldl (fun acc b => acc * 256 + b % 256) 0

/-- The four bytes of a 32-bit pattern, most significant first. -/
def beBytes32 (v : Nat) : List Nat :=
  [v / 2 ^ 24 % 256, v / 2 ^ 16 % 256, v / 2 ^ 8 % 256, v % 256]

/-- The eight bytes of a 64-bit pattern, most significant first. -/
def beBytes64 (v : Nat) : List Nat :=
  [v / 2 ^ 56 % 256, v / 2 ^ 48 % 256, v / 2 ^ 40 % 256, v / 2 ^ 32 % 256,
   v / 2 ^ 24 % 256, v / 2 ^ 16 % 256, v / 2 ^ 8 % 256, v % 256]

/-- Modelled from the spec: `vespalib::GrowableByteBuffer` (its header is not
among the sources), the "growable byte-buffer abstraction (append-only write
target)".  Integers are fixed-width; the spec asks for one consistent byte
order and the model takes the most significant byte first. -/
structure GrowableByteBuffer where
  data : List Nat
deriving DecidableEq, Repr

namespace GrowableByteBuffer

/-- Modelled from the spec: `putBytes`, appending raw bytes. -/
def putBytes (out : GrowableByteBuffer) (bs : List Nat) : GrowableByteBuffer :=
  { data := out.data ++ bs }

/-- Modelled from the spec: `putByte`, appending one byte. -/
def putByte (out : GrowableByteBuffer) (v : Nat) : GrowableByteBuffer :=
  out.putBytes [v % 256]

/-- Modelled from the spec: `putBoolean`, "boolean = 1 byte". -/
def putBoolean (out : GrowableByteBuffer) (v : Bool) : GrowableByteBuffer :=
  out.putByte (if v then 1 else 0)

/-- Modelled from the spec: `putInt`, a fixed-width 32-bit integer. -/
def putInt (out : GrowableByteBuffer) (v : Nat) : GrowableByteBuffer :=
  out.putBytes (beBytes32 (v % 2 ^ 32))

/-- Modelled from the spec: `putString`, "string = length (integer) + UTF-8
bytes": the byte count as a 32-bit integer, then the bytes themselves. -/
def putString (out : GrowableByteBuffer) (s : List Nat) : GrowableByteBuffer :=
  (out.putInt s.length).putBytes s

end GrowableByteBuffer

/-! ## Wire primitives -/

/-- Modelled from the spec: `document::DocumentId` (its header is not among
the sources), known to this layer through its textual form only ("document
identifier = length-prefixed textual form"). -/
structure DocumentId where
  text : List Nat
deriving DecidableEq, Repr

/-- The static functions of `RoutableFactories42` that the version-5.0 header
calls.  `routablefactories42.h` is not among the sources, so the functions are
a parameter of everything that forwards to them; each decoder takes the buffer
by reference and may raise. -/
structure RoutableFactories42 (ε : Type) where
  decodeString : Read ε (List Nat)
  decodeBoolean : Read ε Bool
  decodeInt : Read ε Int
  decodeLong : Read ε Int
  decodeDocumentId : Read ε DocumentId
  encodeDocumentId : DocumentId → GrowableByteBuffer → GrowableByteBuffer

namespace RoutableFactories50

/-- The function `RoutableFactories50::decodeString`:
`return RoutableFactories42::decodeString(in);`. -/
def decodeString {ε : Type} (v42 : RoutableFactories42 ε) (buf : ByteBuffer) :
    Except ε (List Nat) × ByteBuffer :=
  v42.decodeString buf

/-- The function `RoutableFactories50::decodeBoolean`:
`return RoutableFactories42::decodeBoolean(in);`. -/
def decodeBoolean {ε : Type} (v42 : RoutableFactories42 ε) (buf : ByteBuffer) :
    Except ε Bool × ByteBuffer :=
  v42.decodeBoolean buf

/-- The function `RoutableFactories50::decodeInt`:
`return RoutableFactories42::decodeInt(in);`. -/
def decodeInt {ε : Type} (v42 : RoutableFactories42 ε) (buf : ByteBuffer) :
    Except ε Int × ByteBuffer :=
  v42.decodeInt buf

/-- The function `RoutableFactories50::decodeLong`:
`return RoutableFactories42::decodeLong(in);`. -/
def decodeLong {ε : Type} (v42 : RoutableFactories42 ε) (buf : ByteBuffer) :
    Except ε Int × ByteBuffer :=
  v42.decodeLong buf

/-- The function `RoutableFactories50::decodeDocumentId`:
`return RoutableFactories42::decodeDocumentId(in);`. -/
def decodeDocumentId {ε : Type} (v42 : RoutableFactories42 ε) (buf : ByteBuffer) :
    Except ε DocumentId × ByteBuffer :=
  v42.decodeDocumentId buf

/-- The function `RoutableFactories50::encodeDocumentId`:
`return RoutableFactories42::encodeDocumentId(id, out);`. -/
def encodeDocumentId {ε : Type} (v42 : RoutableFactories42 ε) (id : DocumentId)
    (out : GrowableByteBuffer) : GrowableByteBuffer :=
  v42.encodeDocumentId id out

end RoutableFactories50

namespace Legacy

/-- Modelled from the spec: `RoutableFactories42::decodeInt` (defined outside
the sources), a fixed-width 32-bit integer read as `int32_t`. -/
def decodeInt (buf : ByteBuffer) : Except DecodeError Int × ByteBuffer :=
  match buf.getBytes 4 with
  | (Except.ok bs, rest) => (Except.ok (toInt32 (beValue bs)), rest)
  | (Except.error e, rest) => (Except.error e, rest)

/-- Modelled from the spec: `RoutableFactories42::decodeLong` (defined outside
the sources), a fixed-width 64-bit integer read as `int64_t`. -/
def decodeLong (buf : ByteBuffer) : Except DecodeError Int × ByteBuffer :=
  match buf.getBytes 8 with
  | (Except.ok bs, rest) => (Except.ok (toInt64 (beValue bs)), rest)
  | (Except.error e, rest) => (Except.error e, rest)

/-- Modelled from the spec: `RoutableFactories42::decodeBoolean` (defined
outside the sources), "boolean = 1 byte". -/
def decodeBoolean (buf : ByteBuffer) : Except DecodeError Bool × ByteBuffer :=
  match buf.getBytes 1 with
  | (Except.ok bs, rest) => (Except.ok (decide (beValue bs ≠ 0)), rest)
  | (Except.error e, rest) => (Except.error e, rest)

/-- Modelled from the spec: `RoutableFactories42::decodeString` (defined
outside the sources), "string = length (integer) + UTF-8 bytes": the length
field is the 32-bit integer that `putString` wrote, then that many bytes.  The
spec does not say whether the field is read as a signed or as an unsigned
integer, so the reading is the parameter `signedLength`: read signed, a
negative length is an invalid length; read unsigned, every pattern is a
length.  Too few remaining bytes make the read of the content fail. -/
def decodeString (signedLength : Bool) (buf : ByteBuffer) :
    Except DecodeError (List Nat) × ByteBuffer :=
  match decodeInt buf with
  | (Except.ok len, rest) =>
    if signedLength then
      if len < 0 then (Except.error DecodeError.invalidLength, rest)
      else rest.getBytes len.toNat
    else rest.getBytes (toUInt32 len)
  | (Except.error e, rest) => (Except.error e, rest)

/-- Modelled from the spec: `RoutableFactories42::encodeDocumentId` (defined
outside the sources), "document identifier = length-prefixed textual form". -/
def encodeDocumentId (id : DocumentId) (out : GrowableByteBuffer) : GrowableByteBuffer :=
  out.putString id.text

/-- Modelled from the spec: `RoutableFactories42::decodeDocumentId` (defined
outside the sources), the reader of the length-prefixed textual form. -/
def decodeDocumentId (signedLength : Bool) (buf : ByteBuffer) :
    Except DecodeError DocumentId × ByteBuffer :=
  match decodeString signedLength buf with
  | (Except.ok t, rest) => (Except.ok { text := t }, rest)
  | (Except.error e, rest) => (Except.error e, rest)

/-- Modelled from the spec: the version-4.2 primitives as the wire conventions
of the spec describe them, for either reading of the length field of a
string. -/
def factories42 (signedLength : Bool) : RoutableFactories42 DecodeError :=
  { decodeString := decodeString signedLength
    decodeBoolean := decodeBoolean
    decodeInt := decodeInt
    decodeLong := decodeLong
    decodeDocumentId := decodeDocumentId signedLength
    encodeDocumentId := encodeDocumentId }

end Legacy

/-! ## Messages and the approximate-size setter -/

/-- The part of `documentapi::DocumentMessage` that the header touches: the
approximate size (a `uint32_t`) written by `setApproxSize`, next to the
variant-specific content `body`. -/
structure DocumentMessage (P : Type) where
  approxSize : Nat
  body : P
deriving DecidableEq, Repr

/-- The call `msg.setApproxSize(v)`. -/
def DocumentMessage.setApproxSize {P : Type} (m : DocumentMessage P) (v : Nat) :
    DocumentMessage P :=
  { m with approxSize := v }

/-- The value `static_cast<uint32_t>(posNow - posBefore)`: the subtraction is
carried out on `size_t` (modulo `2^64`) and the cast keeps the low 32 bits. -/
def approxSizeDelta (posNow posBefore : Nat) : Nat :=
  ((((posNow : Int) - (posBefore : Int)) % 2 ^ 64) % 2 ^ 32).toNat

/-- The class `ScopedApproxSizeSetter`: the only data member with a value of
its own is `_posBefore`; `_msg` and `_buf` are references, passed explicitly
to the destructor below. -/
structure ScopedApproxSizeSetter where
  posBefore : Nat
deriving DecidableEq, Repr

/-- The constructor `ScopedApproxSizeSetter(msg, buf)`: records
`_buf.getPos()`. -/
def ScopedApproxSizeSetter.create (buf : ByteBuffer) : ScopedApproxSizeSetter :=
  { posBefore := buf.getPos }

/-- The value the destructor passes to `setApproxSize`, given the buffer as it
is when the scope is left. -/
def ScopedApproxSizeSetter.storedSize (s : ScopedApproxSizeSetter) (buf : ByteBuffer) : Nat :=
  approxSizeDelta buf.getPos s.posBefore

/-- The destructor `~ScopedApproxSizeSetter()`:
`_msg.setApproxSize(static_cast<uint32_t>(_buf.getPos() - _posBefore))`. -/
def ScopedApproxSizeSetter.destroy {P : Type} (s : ScopedApproxSizeSetter)
    (msg : DocumentMessage P) (buf : ByteBuffer) : DocumentMessage P :=
  msg.setApproxSize (s.storedSize buf)

/-- What a call `self->decodeInto(*msg, buf)` leaves behind: the message and
the buffer as mutated through their references, and the exception in flight
when the call did not return normally. -/
structure IntoResult (P ε : Type) where
  msg : DocumentMessage P
  buf : ByteBuffer
  raised : Option ε

/-- The observable outcome of `decodeMessage`: the pointer returned (`none` is
the null pointer) or the exception that left the function, the buffer, and the
arguments of the `setApproxSize` calls issued by the size setter, in order. -/
structure Decoded (P ε : Type) where
  result : Except ε (Option (DocumentMessage P))
  buf : ByteBuffer
  approxSizeCalls : List Nat

/-- The template `decodeMessage<MessageType>(self, buf)`.  `fresh` is the
default-constructed `MessageType` of `std::make_unique<MessageType>()` and
`decodeInto` is `self->decodeInto`.  The size setter is constructed after the
message and therefore destroyed before the function is left, on the normal
path (after the return value has been formed from `msg`, which still owns the
same object) and when an exception unwinds the frame. -/
def decodeMessage {P ε : Type} (fresh : DocumentMessage P)
    (decodeInto : DocumentMessage P → ByteBuffer → IntoResult P ε)
    (buf : ByteBuffer) : Decoded P ε :=
  let msg := fresh
  let sizeSetter := ScopedApproxSizeSetter.create buf
  let r := decodeInto msg buf
  let sized := sizeSetter.destroy r.msg r.buf
  match r.raised with
  | none =>
    { result := Except.ok (some sized), buf := r.buf,
      approxSizeCalls := [sizeSetter.storedSize r.buf] }
  | some e =>
    { result := Except.error e, buf := r.buf,
      approxSizeCalls := [sizeSetter.storedSize r.buf] }

/-- A `decodeInto` that reads every remaining byte of the buffer and keeps
nothing of it: the read position ends at the end of the data. -/
def consumeAll {P ε : Type} (msg : DocumentMessage P) (buf : ByteBuffer) : IntoResult P ε :=
  { msg := msg, buf := buf.incPos buf.getRemaining, raised := none }

/-! ## The feed message factories -/

/-- Modelled from the spec: `document::DocumentTypeRepo` (only declared in the
header), the document schema catalog held by the factories whose payload is
schema-typed: "`resolve(type_name_or_id) -> schema_or_none`".  What a schema
holds is left open. -/
structure DocumentTypeRepo (S : Type) where
  resolve : List Nat → Option S

/-- A sample catalog: it resolves the document types whose names are listed. -/
def catalogOf (names : List (List Nat)) : DocumentTypeRepo Unit :=
  { resolve := fun name => if name ∈ names then some () else none }

/-- Modelled from the spec: the content of a `PutDocumentMessage` (its header
is not among the sources) as the round-trip scenario of the spec names it, a
document identifier and a payload.  The payload is schema-typed content: the
name of its document type, which is the schema reference that decoding
resolves in the catalog, and its field data. -/
structure PutDocumentMessage where
  documentId : DocumentId
  documentType : List Nat
  payload : List Nat
deriving DecidableEq, Repr

/-- Modelled from the spec: the content of a `RemoveDocumentMessage` (its
header is not among the sources), the identifier of the document to remove. -/
structure RemoveDocumentMessage where
  documentId : DocumentId
deriving DecidableEq, Repr

namespace PutDocumentMessageFactory

/-- The override `PutDocumentMessageFactory::doDecode`:
`return decodeMessage<PutDocumentMessage>(this, buf);`.  The member
`decodeInto` is only declared in the header and is a parameter here. -/
def doDecode {ε : Type} (fresh : DocumentMessage PutDocumentMessage)
    (decodeInto : DocumentMessage PutDocumentMessage → ByteBuffer →
      IntoResult PutDocumentMessage ε)
    (buf : ByteBuffer) : Decoded PutDocumentMessage ε :=
  decodeMessage fresh decodeInto buf

/-- Modelled from the spec: `PutDocumentMessageFactory::doEncode` (defined
outside the sources).  The identifier is written as a document identifier, the
name of the document type as a string, and the field data, for which the spec
names no encoding of its own, as a length-prefixed byte string; `true` reports
success. -/
def doEncode (signedLength : Bool) (msg : DocumentMessage PutDocumentMessage)
    (buf : GrowableByteBuffer) : Bool × GrowableByteBuffer :=
  (true,
    ((RoutableFactories50.encodeDocumentId (Legacy.factories42 signedLength)
        msg.body.documentId buf).putString msg.body.documentType).putString msg.body.payload)

/-- Modelled from the spec: `PutDocumentMessageFactory::decodeInto` (defined
outside the sources), reading the fields in the order `doEncode` wrote them
and storing each on the message as soon as it is read.  The factory holds the
catalog `_repo`; a document type that the catalog does not resolve is the
failure "unresolvable schema reference". -/
def decodeInto {S : Type} (signedLength : Bool) (_repo : DocumentTypeRepo S)
    (msg : DocumentMessage PutDocumentMessage) (buf : ByteBuffer) :
    IntoResult PutDocumentMessage DecodeError :=
  match RoutableFactories50.decodeDocumentId (Legacy.factories42 signedLength) buf with
  | (Except.error e, b1) => { msg := msg, buf := b1, raised := some e }
  | (Except.ok id, b1) =>
    match RoutableFactories50.decodeString (Legacy.factories42 signedLength) b1 with
    | (Except.error e, b2) =>
      { msg := { msg with body := { msg.body with documentId := id } }, buf := b2,
        raised := some e }
    | (Except.ok typeName, b2) =>
      match _repo.resolve typeName with
      | none =>
        { msg := { msg with body := { msg.body with documentId := id } }, buf := b2,
          raised := some DecodeError.unresolvableSchema }
      | some _ =>
        match RoutableFactories50.decodeString (Legacy.factories42 signedLength) b2 with
        | (Except.error e, b3) =>
          { msg := { msg with body := { documentId := id, documentType := typeName,
                                        payload := msg.body.payload } },
            buf := b3, raised := some e }
        | (Except.ok p, b3) =>
          { msg := { msg with body := { documentId := id, documentType := typeName,
                                        payload := p } },
            buf := b3, raised := none }

end PutDocumentMessageFactory

namespace RemoveDocumentMessageFactory

/-- The override `RemoveDocumentMessageFactory::doDecode`:
`return decodeMessage<RemoveDocumentMessage>(this, buf);`.  The member
`decodeInto` is only declared in the header and is a parameter here. -/
def doDecode {ε : Type} (fresh : DocumentMessage RemoveDocumentMessage)
    (decodeInto : DocumentMessage RemoveDocumentMessage → ByteBuffer →
      IntoResult RemoveDocumentMessage ε)
    (buf : ByteBuffer) : Decoded RemoveDocumentMessage ε :=
  decodeMessage fresh decodeInto buf

/-- Modelled from the spec: `RemoveDocumentMessageFactory::doEncode` (defined
outside the sources), writing the document identifier. -/
def doEncode (signedLength : Bool) (msg : DocumentMessage RemoveDocumentMessage)
    (buf : GrowableByteBuffer) : Bool × GrowableByteBuffer :=
  (true, RoutableFactories50.encodeDocumentId (Legacy.factories42 signedLength)
    msg.body.documentId buf)

/-- Modelled from the spec: `RemoveDocumentMessageFactory::decodeInto` (defined
outside the sources), reading the document identifier. -/
def decodeInto (signedLength : Bool) (msg : DocumentMessage RemoveDocumentMessage)
    (buf : ByteBuffer) : IntoResult RemoveDocumentMessage DecodeError :=
  match RoutableFactories50.decodeDocumentId (Legacy.factories42 signedLength) buf with
  | (Except.error e, b1) => { msg := msg, buf := b1, raised := some e }
  | (Except.ok id, b1) =>
    { msg := { msg with body := { documentId := id } }, buf := b1, raised := none }

end RemoveDocumentMessageFactory

/-- Modelled from the spec: `DocumentMessageFactory::decode` (declared in the
header, defined outside the sources), the public entry that "wraps
`do_decode`": it "returns a null/empty result on any malformed input" and
"never raises an exception" across its boundary, so a lower-level failure
that leaves the hook becomes the null result.  `_loadTypes` is the opaque
context of the call. -/
def DocumentMessageFactory.decode {P ε L : Type} (doDecode : ByteBuffer → Decoded P ε)
    (buf : ByteBuffer) (_loadTypes : L) : Option (DocumentMessage P) × ByteBuffer :=
  match (doDecode buf).result with
  | Except.ok msg => (msg, (doDecode buf).buf)
  | Except.error _ => (none, (doDecode buf).buf)

namespace UpdateDocumentMessageFactory

/-- The override `UpdateDocumentMessageFactory::doDecode`:
`return decodeMessage<UpdateDocumentMessage>(this, buf);`.  The member
`decodeInto` is only declared in the header and is a parameter here, as is the
content type of the message. -/
def doDecode {P ε : Type} (fresh : DocumentMessage P)
    (decodeInto : DocumentMessage P → ByteBuffer → IntoResult P ε)
    (buf : ByteBuffer) : Decoded P ε :=
  decodeMessage fresh decodeInto buf

/-- The public `decode` that the update factory inherits from
`DocumentMessageFactory`, around its own `doDecode`. -/
def decode {P ε L : Type} (fresh : DocumentMessage P)
    (decodeInto : DocumentMessage P → ByteBuffer → IntoResult P ε)
    (buf : ByteBuffer) (loadTypes : L) : Option (DocumentMessage P) × ByteBuffer :=
  DocumentMessageFactory.decode (doDecode fresh decodeInto) buf loadTypes

end UpdateDocumentMessageFactory

/-! ## The bucket-list message factory -/

/-- The fields of a message that the spec does not list ("the rest of the
payload"), with the way the factory writes and reads them: they are defined
outside the sources and are a parameter of the factory. -/
structure PayloadCodec (R : Type) where
  encode : R → GrowableByteBuffer → GrowableByteBuffer
  decode : ByteBuffer → Except DecodeError R × ByteBuffer

/-- Modelled from the spec: the content of a `GetBucketListMessage` (its header
is not among the sources): the bucket-space token, written in addition to "the
rest of the payload". -/
structure GetBucketListMessage (R : Type) where
  rest : R
  bucketSpace : List Nat
deriving DecidableEq, Repr

namespace GetBucketListMessageFactory

/-- Modelled from the spec: the hook `encodeBucketSpace` (declared in the
header, defined outside the sources), "bucket-space token = length-prefixed
textual reference". -/
def encodeBucketSpace (bucketSpace : List Nat) (buf : GrowableByteBuffer) :
    Bool × GrowableByteBuffer :=
  (true, buf.putString bucketSpace)

/-- Modelled from the spec: the hook `decodeBucketSpace` (declared in the
header, defined outside the sources), the reader of the length-prefixed
token. -/
def decodeBucketSpace (signedLength : Bool) (buf : ByteBuffer) :
    Except DecodeError (List Nat) × ByteBuffer :=
  RoutableFactories50.decodeString (Legacy.factories42 signedLength) buf

/-- Modelled from the spec: `GetBucketListMessageFactory::doEncode` (defined
outside the sources): the rest of the payload, then the token through the
hook, whose verdict is the result.  The spec does not give the order of the
two. -/
def doEncode {R : Type} (codec : PayloadCodec R) (msg : DocumentMessage (GetBucketListMessage R))
    (buf : GrowableByteBuffer) : Bool × GrowableByteBuffer :=
  encodeBucketSpace msg.body.bucketSpace (codec.encode msg.body.rest buf)

/-- Modelled from the spec: `GetBucketListMessageFactory::doDecode` (defined
outside the sources), reading the fields in the order `doEncode` wrote them.
A read that fails ends the decode with that failure; how the hook hands it to
its caller is no part of the model. -/
def doDecode {R : Type} (signedLength : Bool) (codec : PayloadCodec R)
    (fresh : DocumentMessage (GetBucketListMessage R)) (buf : ByteBuffer) :
    Except DecodeError (DocumentMessage (GetBucketListMessage R)) × ByteBuffer :=
  match codec.decode buf with
  | (Except.error e, b1) => (Except.error e, b1)
  | (Except.ok r, b1) =>
    match decodeBucketSpace signedLength b1 with
    | (Except.error e, b2) => (Except.error e, b2)
    | (Except.ok space, b2) =>
      (Except.ok { fresh with body := { rest := r, bucketSpace := space } }, b2)

end GetBucketListMessageFactory

/-! ## The factory bases and the registry -/

/-- Modelled from the spec: `mbus::Routable` (its header is not among the
sources), a message or reply "tagged by a stable numeric type code" that
stands for its runtime type, with variant-specific content. -/
structure Routable (C : Type) where
  type : Nat
  content : C
deriving DecidableEq, Repr

/-- What a call of a factory base's `encode` leaves behind: the boolean
returned, the output buffer, and the routables that were handed to the
`doEncode` hook, in order. -/
structure EncodeOutcome (C : Type) where
  ok : Bool
  out : GrowableByteBuffer
  hookCalls : List (Routable C)

/-- The class `DocumentMessageFactory`: the two pure virtual hooks of the
header, and the type the factory was registered for. -/
structure DocumentMessageFactory (C : Type) where
  registeredType : Nat
  doEncode : Routable C → GrowableByteBuffer → Bool × GrowableByteBuffer
  doDecode : ByteBuffer → Option (Routable C) × ByteBuffer

/-- Modelled from the spec: `DocumentMessageFactory::encode` (declared in the
header, defined outside the sources): `false` when the runtime type of the
routable is not the registered one, otherwise the verdict of the hook. -/
def DocumentMessageFactory.encode {C : Type} (f : DocumentMessageFactory C)
    (obj : Routable C) (out : GrowableByteBuffer) : EncodeOutcome C :=
  if obj.type = f.registeredType then
    { ok := (f.doEncode obj out).1, out := (f.doEncode obj out).2, hookCalls := [obj] }
  else
    { ok := false, out := out, hookCalls := [] }

/-- The class `DocumentReplyFactory`: the two pure virtual hooks of the
header, and the type the factory was registered for. -/
structure DocumentReplyFactory (C : Type) where
  registeredType : Nat
  doEncode : Routable C → GrowableByteBuffer → Bool × GrowableByteBuffer
  doDecode : ByteBuffer → Option (Routable C) × ByteBuffer

/-- Modelled from the spec: `DocumentReplyFactory::encode` (declared in the
header, defined outside the sources): `false` when the runtime type of the
routable is not the registered one, otherwise the verdict of the hook. -/
def DocumentReplyFactory.encode {C : Type} (f : DocumentReplyFactory C)
    (obj : Routable C) (out : GrowableByteBuffer) : EncodeOutcome C :=
  if obj.type = f.registeredType then
    { ok := (f.doEncode obj out).1, out := (f.doEncode obj out).2, hookCalls := [obj] }
  else
    { ok := false, out := out, hookCalls := [] }

/-- Modelled from the spec: the factory interface `IRoutableFactory` (its
header is not among the sources): `encode(routable, out) -> bool` and
`decode(in) -> routable_or_null`. -/
structure IRoutableFactory (C : Type) where
  encode : Routable C → GrowableByteBuffer → Bool × GrowableByteBuffer
  decode : ByteBuffer → Option (Routable C) × ByteBuffer

/-- Modelled from the spec: the registry (no part of it is among the
sources), a mapping from numeric type code to factory kept as a list of
registrations. -/
structure Registry (C : Type) where
  entries : List (Nat × IRoutableFactory C)

namespace Registry

/-- Modelled from the spec: registering a factory under a type code; a
registration replaces any earlier one for the same code. -/
def put {C : Type} (r : Registry C) (code : Nat) (f : IRoutableFactory C) : Registry C :=
  { entries := (code, f) :: r.entries.filter (fun e => decide (e.1 ≠ code)) }

/-- Modelled from the spec: the registry "built once from the full list of
variant codecs keyed by numeric type code". -/
def build {C : Type} (codecs : List (Nat × IRoutableFactory C)) : Registry C :=
  codecs.foldl (fun r e => r.put e.1 e.2) { entries := [] }

/-- Modelled from the spec: `lookup(type_code) -> Factory_or_none`. -/
def lookup {C : Type} (r : Registry C) (code : Nat) : Option (IRoutableFactory C) :=
  (r.entries.find? (fun e => decide (e.1 = code))).map Prod.snd

/-- The number of factories registered under a type code. -/
def factoryCount {C : Type} (r : Registry C) (code : Nat) : Nat :=
  r.entries.countP (fun e => decide (e.1 = code))

end Registry

/-- Modelled from the spec: what the transport gets for a type code and a
payload: no factory for the code, a factory whose decode gave the null result,
or the decoded routable. -/
inductive DecodeOutcome (C : Type) where
  | noFactory
  | decodeFailed
  | decoded (r : Routable C)

/-- Modelled from the spec: "transport receives framed bytes + type code →
registry lookup → Factory.decode". -/
def Registry.decode {C : Type} (r : Registry C) (code : Nat) (buf : ByteBuffer) :
    DecodeOutcome C :=
  match r.lookup code with
  | none => DecodeOutcome.noFactory
  | some f =>
    match (f.decode buf).1 with
    | none => DecodeOutcome.decodeFailed
    | some obj => DecodeOutcome.decoded obj

/-! ## The handle recorder -/

/-- Modelled from the spec: `search::fef::MatchDataDetails` (its header is not
among the sources), the two levels of detail the test registers handles
with. -/
inductive MatchDataDetails where
  | Normal
  | Cheap
deriving DecidableEq, Repr

/-- Modelled from the spec: `proton::matching::HandleRecorder`
(`handlerecorder.h` is not among the sources; the test is): one set of
handles for each level of detail. -/
structure HandleRecorder where
  normal : Finset Nat
  cheap : Finset Nat
deriving DecidableEq

namespace HandleRecorder

/-- The default-constructed recorder of `HandleRecorder recorder;`. -/
def empty : HandleRecorder := { normal := ∅, cheap := ∅ }

/-- Modelled from the spec: `get_normal_handles()`. -/
def get_normal_handles (r : HandleRecorder) : Finset Nat := r.normal

/-- Modelled from the spec: `get_cheap_handles()`. -/
def get_cheap_handles (r : HandleRecorder) : Finset Nat := r.cheap

/-- Modelled from the spec: the recording of one handle in the set of its
level of detail. -/
def add (r : HandleRecorder) (handle : Nat) (details : MatchDataDetails) : HandleRecorder :=
  match details with
  | MatchDataDetails.Normal => { r with normal := insert handle r.normal }
  | MatchDataDetails.Cheap => { r with cheap := insert handle r.cheap }

/-- The recorder of the test together with the thread's binding: `bound` holds
between the construction and the destruction of a `Binder` on the recorder. -/
structure Thread where
  recorder : HandleRecorder
  bound : Bool
deriving DecidableEq

/-- Modelled from the spec: the constructor of `HandleRecorder::Binder`. -/
def bind (recorder : HandleRecorder) : Thread := { recorder := recorder, bound := true }

/-- Modelled from the spec: the destructor of `HandleRecorder::Binder`; the
recorder keeps what it recorded. -/
def unbind (t : Thread) : HandleRecorder := t.recorder

/-- Modelled from the spec: the static `HandleRecorder::register_handle`,
which records on the recorder the thread has bound, if any. -/
def register_handle (handle : Nat) (details : MatchDataDetails) (t : Thread) : Thread :=
  if t.bound then { t with recorder := t.recorder.add handle details } else t

end HandleRecorder

/-- The test helper `register_normal_handle`:
`HandleRecorder::register_handle(handle, MatchDataDetails::Normal);`. -/
def register_normal_handle (handle : Nat) (t : HandleRecorder.Thread) : HandleRecorder.Thread :=
  HandleRecorder.register_handle handle MatchDataDetails.Normal t

/-- The test helper `register_cheap_handle`:
`HandleRecorder::register_handle(handle, MatchDataDetails::Cheap);`. -/
def register_cheap_handle (handle : Nat) (t : HandleRecorder.Thread) : HandleRecorder.Thread :=
  HandleRecorder.register_handle handle MatchDataDetails.Cheap t

/-- A sequence of `register_handle` calls made inside the scope of a `Binder`
on a default-constructed recorder, and the recorder after the scope. -/
def recordAll (calls : List (Nat × MatchDataDetails)) : HandleRecorder :=
  HandleRecorder.unbind
    (calls.foldl (fun t c => HandleRecorder.register_handle c.1 c.2 t)
      (HandleRecorder.bind HandleRecorder.empty))

/-- The body of the test `can_record_both_normal_and_cheap_handles`. -/
def test_can_record_both_normal_and_cheap_handles : HandleRecorder :=
  HandleRecorder.unbind
    (register_normal_handle 7
      (register_cheap_handle 5
        (register_normal_handle 3 (HandleRecorder.bind HandleRecorder.empty))))

/-- The body of the test `the_same_handle_can_be_in_both_normal_and_cheap_set`. -/
def test_the_same_handle_can_be_in_both_normal_and_cheap_set : HandleRecorder :=
  HandleRecorder.unbind
    (register_cheap_handle 3
      (register_normal_handle 3 (HandleRecorder.bind HandleRecorder.empty)))

/-- A `decodeInto` that reads every remaining byte of the buffer and then
fails with the exception `e`: the read position is at the end of the data when
the exception leaves it. -/
def consumeAllThenRaise {P ε : Type} (e : ε) (msg : DocumentMessage P) (buf : ByteBuffer) :
    IntoResult P ε :=
  { msg := msg, buf := buf.incPos buf.getRemaining, raised := some e }

/-! ## The hash table of the copy tests -/

/-- Modelled from the spec: `vespalib::hashtable` (`hashtable.hpp` is not among
the sources; its test is), as the test uses it: the values stored, each found
under the key that the key extractor reads from it.  The hash function only
decides where a value is kept and has no part in the model. -/
structure hashtable (V : Type) where
  nodes : List V
deriving DecidableEq, Repr

namespace hashtable

/-- Modelled from the spec: the constructor `hashtable(reservedSpace)`, an
empty table. -/
def create {V : Type} (_reservedSpace : Nat) : hashtable V := { nodes := [] }

/-- Modelled from the spec: `find(key)`, the stored value whose extracted key
equals `key` (`none` is the end iterator). -/
def find {K V : Type} [DecidableEq K] (keyExtract : V → K) (t : hashtable V) (key : K) :
    Option V :=
  t.nodes.find? (fun v => decide (keyExtract v = key))

/-- Modelled from the spec: `insert(value)` with the meaning it has for the
standard containers this one is alike: a value whose key is already present is
not stored and `false` is reported, otherwise the value is added. -/
def insert {K V : Type} [DecidableEq K] (keyExtract : V → K) (t : hashtable V) (v : V) :
    hashtable V × Bool :=
  match t.find keyExtract (keyExtract v) with
  | some _ => (t, false)
  | none => ({ nodes := t.nodes ++ [v] }, true)

/-- Modelled from the spec: the copy constructor `hashtable(const hashtable &)`:
a new table holding copies of the values of the argument, which it takes by
constant reference and leaves as it is. -/
def copy {V : Type} (t : hashtable V) : hashtable V := { nodes := t.nodes }

/-- A run of `insert` calls, the reports dropped. -/
def insertAll {K V : Type} [DecidableEq K] (keyExtract : V → K) (t : hashtable V)
    (vs : List V) : hashtable V :=
  vs.foldl (fun acc w => (acc.insert keyExtract w).1) t

end hashtable

/-- The key extractor `Identity` of `set_hashtable<K>`. -/
def Identity {K : Type} (v : K) : K := v

/-- The key extractor `FirstInVector` of the test: `v[0]`, which C++ leaves
undefined on an empty vector and which reads 0 there in this model. -/
def FirstInVector (v : List Int) : Int := v.headD 0

/-- The test "require that hashtable<int> can be copied": the value
`*table2.find(42)` that the test compares with 42. -/
def test_hashtable_int_can_be_copied : Option Int :=
  let table : hashtable Int := hashtable.create 100
  let table := (table.insert Identity 42).1
  let table2 := table.copy
  table2.find Identity 42

/-- The test "require that hashtable<vector<int>> can be copied": the values
`(*table2.find(2))[2]` and `(*table.find(2))[2]` that the test compares
with 6. -/
def test_hashtable_vector_can_be_copied : Option Int × Option Int :=
  let table : hashtable (List Int) := hashtable.create 100
  let table := (table.insert FirstInVector [2, 4, 6]).1
  let table2 := table.copy
  ((table2.find FirstInVector 2).bind (fun v => v.get? 2),
   (table.find FirstInVector 2).bind (fun v => v.get? 2))

end Vespa

/-! # Theorems -/

namespace Vespa

/-! ## The approximate size recorded by `decodeMessage` -/

theorem approxSizeDelta_of_forward (posNow posBefore : Nat) (hfwd : posBefore ≤ posNow)
    (hsmall : posNow - posBefore < 2 ^ 32) :
    approxSizeDelta posNow posBefore = posNow - posBefore := by
  unfold approxSizeDelta
  omega

theorem consumeAll_pos {P ε : Type} (msg : DocumentMessage P) (data : List Nat) :
    (@consumeAll P ε msg { data := data, pos := 0 }).buf.getPos = data.length := by
  simp [consumeAll, ByteBuffer.incPos, ByteBuffer.getRemaining, ByteBuffer.getPos]

/-- C1, as stated, fails: on a buffer of `2^32` bytes a `decodeInto` that
returns normally after reading all of them moves the read position from `0` to
`4294967296`, and the approximate size stored on the returned message is `0`. -/
theorem decodeMessage_approxSize_wraps :
    (@consumeAll Unit DecodeError { approxSize := 1024, body := () }
        { data := List.replicate 4294967296 0, pos := 0 }).raised = none
    ∧ (@consumeAll Unit DecodeError { approxSize := 1024, body := () }
        { data := List.replicate 4294967296 0, pos := 0 }).buf.getPos
        - ByteBuffer.getPos { data := List.replicate 4294967296 0, pos := 0 } = 4294967296
    ∧ (@decodeMessage Unit DecodeError { approxSize := 1024, body := () } consumeAll
        { data := List.replicate 4294967296 0, pos := 0 }).result
        = Except.ok (some { approxSize := 0, body := () }) := by
  have hpos := @consumeAll_pos Unit DecodeError { approxSize := 1024, body := () }
    (List.replicate 4294967296 0)
  rw [List.length_replicate] at hpos
  refine ⟨rfl, ?_, ?_⟩
  · rw [hpos]
    rfl
  · have hraised : (@consumeAll Unit DecodeError { approxSize := 1024, body := () }
        { data := List.replicate 4294967296 0, pos := 0 }).raised = none := rfl
    have hmsg : (@consumeAll Unit DecodeError { approxSize := 1024, body := () }
        { data := List.replicate 4294967296 0, pos := 0 }).msg
        = { approxSize := 1024, body := () } := rfl
    simp only [decodeMessage, hraised, hmsg, ScopedApproxSizeSetter.destroy,
      ScopedApproxSizeSetter.storedSize, ScopedApproxSizeSetter.create, hpos,
      DocumentMessage.setApproxSize]
    have hdelta : approxSizeDelta 4294967296
        (ByteBuffer.getPos { data := List.replicate 4294967296 0, pos := 0 }) = 0 := by
      show approxSizeDelta 4294967296 0 = 0
      unfold approxSizeDelta
      norm_num
    rw [hdelta]

/-- C1 (amended): for every message type and every buffer, when `decodeInto`
returns normally, does not move the read position backwards and moves it by
fewer than `2^32` bytes, `decodeMessage` returns the message `decodeInto` left
behind with its approximate size equal to the read position after `decodeInto`
minus the read position before it. -/
theorem decodeMessage_approxSize_eq_consumed {P ε : Type} (fresh : DocumentMessage P)
    (decodeInto : DocumentMessage P → ByteBuffer → IntoResult P ε) (buf : ByteBuffer)
    (hnormal : (decodeInto fresh buf).raised = none)
    (hfwd : buf.getPos ≤ (decodeInto fresh buf).buf.getPos)
    (hsmall : (decodeInto fresh buf).buf.getPos - buf.getPos < 2 ^ 32) :
    (decodeMessage fresh decodeInto buf).result
      = Except.ok (some { approxSize := (decodeInto fresh buf).buf.getPos - buf.getPos,
                          body := (decodeInto fresh buf).msg.body }) := by
  simp only [decodeMessage, hnormal, ScopedApproxSizeSetter.destroy,
    ScopedApproxSizeSetter.storedSize, ScopedApproxSizeSetter.create,
    DocumentMessage.setApproxSize]
  rw [approxSizeDelta_of_forward _ _ hfwd hsmall]

/-- The amended C1 at a buffer of five bytes read from position 2 to the end:
the size recorded is 3. -/
theorem decodeMessage_approxSize_eq_consumed_witness :
    (@consumeAll Unit DecodeError { approxSize := 1024, body := () }
        { data := [1, 2, 3, 4, 5], pos := 2 }).raised = none
    ∧ (@decodeMessage Unit DecodeError { approxSize := 1024, body := () } consumeAll
        { data := [1, 2, 3, 4, 5], pos := 2 }).result
        = Except.ok (some { approxSize := 3, body := () }) :=
  ⟨rfl, @decodeMessage_approxSize_eq_consumed Unit DecodeError
    { approxSize := 1024, body := () } consumeAll
    { data := [1, 2, 3, 4, 5], pos := 2 } rfl (by decide) (by decide)⟩

/-! ## The version-5.0 primitives forward to the version-4.2 ones -/

/-- C5: each version-5.0 primitive returns, on every buffer state, the value
(or raises the exception) and leaves the buffer that the version-4.2 primitive
of the same name does, whatever the version-4.2 primitives are; on the output
side `encodeDocumentId` appends what the version-4.2 one appends. -/
theorem primitives50_eq_primitives42 {ε : Type} (v42 : RoutableFactories42 ε) :
    (∀ buf, RoutableFactories50.decodeString v42 buf = v42.decodeString buf)
    ∧ (∀ buf, RoutableFactories50.decodeBoolean v42 buf = v42.decodeBoolean buf)
    ∧ (∀ buf, RoutableFactories50.decodeInt v42 buf = v42.decodeInt buf)
    ∧ (∀ buf, RoutableFactories50.decodeLong v42 buf = v42.decodeLong buf)
    ∧ (∀ buf, RoutableFactories50.decodeDocumentId v42 buf = v42.decodeDocumentId buf)
    ∧ (∀ id out, RoutableFactories50.encodeDocumentId v42 id out = v42.encodeDocumentId id out) :=
  ⟨fun _ => rfl, fun _ => rfl, fun _ => rfl, fun _ => rfl, fun _ => rfl, fun _ _ => rfl⟩

/-! ## Strings and document identifiers on the wire -/

theorem beValue_beBytes64 (v : Nat) (h : v < 2 ^ 64) : beValue (beBytes64 v) = v := by
  have e1 : v / 2 ^ 8 = v / 256 := rfl
  have e2 : v / 2 ^ 16 = v / 256 / 256 := by
    simp only [Nat.div_div_eq_div_mul]; rfl
  have e3 : v / 2 ^ 24 = v / 256 / 256 / 256 := by
    simp only [Nat.div_div_eq_div_mul]; rfl
  have e4 : v / 2 ^ 32 = v / 256 / 256 / 256 / 256 := by
    simp only [Nat.div_div_eq_div_mul]; rfl
  have e5 : v / 2 ^ 40 = v / 256 / 256 / 256 / 256 / 256 := by
    simp only [Nat.div_div_eq_div_mul]; rfl
  have e6 : v / 2 ^ 48 = v / 256 / 256 / 256 / 256 / 256 / 256 := by
    simp only [Nat.div_div_eq_div_mul]; rfl
  have e7 : v / 2 ^ 56 = v / 256 / 256 / 256 / 256 / 256 / 256 / 256 := by
    simp only [Nat.div_div_eq_div_mul]; rfl
  simp only [beValue, beBytes64, List.foldl, e1, e2, e3, e4, e5, e6, e7]
  omega

theorem length_beBytes64 (v : Nat) : (beBytes64 v).length = 8 := rfl

theorem getBytes_append (front bs back : List Nat) :
    ByteBuffer.getBytes { data := front ++ (bs ++ back), pos := front.length } bs.length
      = (Except.ok bs, { data := front ++ (bs ++ back), pos := front.length + bs.length }) := by
  simp [ByteBuffer.getBytes, ByteBuffer.getRemaining, ByteBuffer.incPos]

theorem decodeLong_append (front back : List Nat) (v : Nat) (h : v < 2 ^ 64) :
    Legacy.decodeLong { data := front ++ (beBytes64 v ++ back), pos := front.length }
      = (Except.ok (toInt64 v),
         { data := front ++ (beBytes64 v ++ back), pos := front.length + 8 }) := by
  have hb := getBytes_append front (beBytes64 v) back
  rw [length_beBytes64] at hb
  simp only [Legacy.decodeLong, hb, beValue_beBytes64 v h]

theorem legacy_decodeDocumentId_of_error (signedLength : Bool) (buf rest : ByteBuffer)
    (e : DecodeError) (h : Legacy.decodeString signedLength buf = (Except.error e, rest)) :
    Legacy.decodeDocumentId signedLength buf = (Except.error e, rest) := by
  simp only [Legacy.decodeDocumentId, h]

theorem decodeMessage_result_of_normal {P ε : Type} (fresh : DocumentMessage P)
    (decodeInto : DocumentMessage P → ByteBuffer → IntoResult P ε) (buf : ByteBuffer)
    (h : (decodeInto fresh buf).raised = none) :
    ∃ m, (decodeMessage fresh decodeInto buf).result = Except.ok (some m)
      ∧ m.body = (decodeInto fresh buf).msg.body := by
  simp only [decodeMessage, h]
  exact ⟨_, rfl, rfl⟩

theorem decodeMessage_result_of_raised {P ε : Type} (fresh : DocumentMessage P)
    (decodeInto : DocumentMessage P → ByteBuffer → IntoResult P ε) (buf : ByteBuffer) (e : ε)
    (h : (decodeInto fresh buf).raised = some e) :
    (decodeMessage fresh decodeInto buf).result = Except.error e := by
  simp only [decodeMessage, h]

theorem decodeMessage_result_ne_null {P ε : Type} (fresh : DocumentMessage P)
    (decodeInto : DocumentMessage P → ByteBuffer → IntoResult P ε) (buf : ByteBuffer) :
    (decodeMessage fresh decodeInto buf).result ≠ Except.ok none := by
  cases hr : (decodeInto fresh buf).raised with
  | none =>
    obtain ⟨m, hm, _⟩ := decodeMessage_result_of_normal fresh decodeInto buf hr
    rw [hm]
    simp
  | some e =>
    rw [decodeMessage_result_of_raised fresh decodeInto buf e hr]
    simp

/-- C3: for a factory built on `DocumentMessageFactory` and one built on
`DocumentReplyFactory`, and routables whose type is not the one the factory
was registered for, `encode` returns `false` (it is a total function and
raises nothing), leaves the output buffer alone and hands nothing to
`doEncode`; and whatever routable `encode` is called with, every routable
handed to `doEncode` has the registered type. -/
theorem encode_rejects_other_types {C : Type} (fm : DocumentMessageFactory C)
    (fr : DocumentReplyFactory C) (msg reply : Routable C) (out : GrowableByteBuffer)
    (hmsg : msg.type ≠ fm.registeredType) (hreply : reply.type ≠ fr.registeredType) :
    ((fm.encode msg out).ok = false ∧ (fm.encode msg out).hookCalls = []
      ∧ (fm.encode msg out).out = out)
    ∧ ((fr.encode reply out).ok = false ∧ (fr.encode reply out).hookCalls = []
      ∧ (fr.encode reply out).out = out)
    ∧ (∀ (obj : Routable C) (o : GrowableByteBuffer),
        ∀ r ∈ (fm.encode obj o).hookCalls, r.type = fm.registeredType)
    ∧ (∀ (obj : Routable C) (o : GrowableByteBuffer),
        ∀ r ∈ (fr.encode obj o).hookCalls, r.type = fr.registeredType) := by
  refine ⟨?_, ?_, ?_, ?_⟩
  · simp [DocumentMessageFactory.encode, hmsg]
  · simp [DocumentReplyFactory.encode, hreply]
  · intro obj o r hr
    unfold DocumentMessageFactory.encode at hr
    split at hr
    · rename_i htype
      simp only [List.mem_singleton] at hr
      rw [hr]
      exact htype
    · simp at hr
  · intro obj o r hr
    unfold DocumentReplyFactory.encode at hr
    split at hr
    · rename_i htype
      simp only [List.mem_singleton] at hr
      rw [hr]
      exact htype
    · simp at hr

/-- C3 at factories registered for the types 100004 and 200004, whose hooks
append the content, and routables of the types 100005 and 200005. -/
theorem encode_rejects_other_types_witness :
    (DocumentMessageFactory.encode
        { registeredType := 100004,
          doEncode := fun (obj : Routable (List Nat)) o => (true, o.putBytes obj.content),
          doDecode := fun b => (none, b) }
        { type := 100005, content := [1, 2] } { data := [9] }).ok = false
    ∧ (DocumentReplyFactory.encode
        { registeredType := 200004,
          doEncode := fun (obj : Routable (List Nat)) o => (true, o.putBytes obj.content),
          doDecode := fun b => (none, b) }
        { type := 200005, content := [1, 2] } { data := [9] }).hookCalls = [] :=
  ⟨(encode_rejects_other_types
      { registeredType := 100004,
        doEncode := fun (obj : Routable (List Nat)) o => (true, o.putBytes obj.content),
        doDecode := fun b => (none, b) }
      { registeredType := 200004,
        doEncode := fun (obj : Routable (List Nat)) o => (true, o.putBytes obj.content),
        doDecode := fun b => (none, b) }
      { type := 100005, content := [1, 2] } { type := 200005, content := [1, 2] }
      { data := [9] } (by decide) (by decide)).1.1,
   (encode_rejects_other_types
      { registeredType := 100004,
        doEncode := fun (obj : Routable (List Nat)) o => (true, o.putBytes obj.content),
        doDecode := fun b => (none, b) }
      { registeredType := 200004,
        doEncode := fun (obj : Routable (List Nat)) o => (true, o.putBytes obj.content),
        doDecode := fun b => (none, b) }
      { type := 100005, content := [1, 2] } { type := 200005, content := [1, 2] }
      { data := [9] } (by decide) (by decide)).2.1.2.1⟩

/-! ## Decoding an update message from too short a buffer -/

theorem factoryCount_put {C : Type} (r : Registry C) (c code : Nat) (f : IRoutableFactory C) :
    (r.put c f).factoryCount code = if c = code then 1 else r.factoryCount code := by
  unfold Registry.put Registry.factoryCount
  rw [List.countP_cons, List.countP_filter]
  by_cases hc : c = code
  · subst hc
    have hzero : List.countP (fun a : Nat × IRoutableFactory C =>
        decide (a.1 = c) && decide (a.1 ≠ c)) r.entries = 0 := by
      rw [List.countP_eq_zero]
      intro a _
      by_cases ha : a.1 = c <;> simp [ha]
    simp [hzero]
  · have hsame : List.countP (fun a : Nat × IRoutableFactory C =>
        decide (a.1 = code) && decide (a.1 ≠ c)) r.entries
        = List.countP (fun a : Nat × IRoutableFactory C => decide (a.1 = code)) r.entries := by
      congr 1
      funext a
      by_cases ha : a.1 = code
      · have hne : ¬ code = c := fun h => hc h.symm
        simp [ha, hne]
      · simp [ha]
    rw [hsame]
    simp [hc]

theorem factoryCount_foldl_put {C : Type} (codecs : List (Nat × IRoutableFactory C))
    (r : Registry C) (code : Nat) :
    (codecs.foldl (fun r e => r.put e.1 e.2) r).factoryCount code
      = if code ∈ codecs.map Prod.fst then 1 else r.factoryCount code := by
  induction codecs generalizing r with
  | nil => simp
  | cons e es ih =>
    rw [List.foldl_cons, ih, factoryCount_put]
    by_cases h1 : code ∈ es.map Prod.fst
    · simp [h1]
    · by_cases h2 : e.1 = code
      · simp [h2]
      · have h3 : ¬ code = e.1 := fun h => h2 h.symm
        simp [h1, h2, h3]

theorem mem_foldl_put {C : Type} (codecs : List (Nat × IRoutableFactory C))
    (r : Registry C) (x : Nat × IRoutableFactory C)
    (hx : x ∈ (codecs.foldl (fun r e => r.put e.1 e.2) r).entries) :
    x ∈ codecs ∨ x ∈ r.entries := by
  induction codecs generalizing r with
  | nil => exact Or.inr hx
  | cons e es ih =>
    rw [List.foldl_cons] at hx
    rcases ih _ hx with h | h
    · exact Or.inl (List.mem_cons_of_mem _ h)
    · unfold Registry.put at h
      rcases List.mem_cons.mp h with h | h
      · exact Or.inl (h ▸ List.mem_cons_self _ _)
      · exact Or.inr (List.mem_filter.mp h).1

theorem factoryCount_build {C : Type} (codecs : List (Nat × IRoutableFactory C)) (code : Nat) :
    (Registry.build codecs).factoryCount code
      = if code ∈ codecs.map Prod.fst then 1 else 0 := by
  unfold Registry.build
  rw [factoryCount_foldl_put]
  rfl

theorem lookup_isSome_iff {C : Type} (r : Registry C) (code : Nat) :
    (r.lookup code).isSome ↔ 0 < r.factoryCount code := by
  unfold Registry.lookup Registry.factoryCount
  rw [List.countP_pos_iff]
  cases hfind : List.find? (fun e : Nat × IRoutableFactory C => decide (e.1 = code)) r.entries with
  | none =>
    rw [List.find?_eq_none] at hfind
    simp only [Option.map_none', Option.isSome_none, Bool.false_eq_true, false_iff]
    rintro ⟨a, ha, hp⟩
    exact hfind a ha hp
  | some e =>
    simp only [Option.map_some', Option.isSome_some, true_iff]
    have hkey := List.find?_some hfind
    exact ⟨e, List.mem_of_find?_eq_some hfind, hkey⟩

theorem lookup_mem {C : Type} (r : Registry C) (code : Nat) (f : IRoutableFactory C)
    (h : r.lookup code = some f) : (code, f) ∈ r.entries := by
  unfold Registry.lookup at h
  rw [Option.map_eq_some'] at h
  obtain ⟨e, he, hf⟩ := h
  have hkey := List.find?_some he
  have hmem := List.mem_of_find?_eq_some he
  simp only [decide_eq_true_eq] at hkey
  rw [← hkey, ← hf]
  exact hmem

theorem lookup_build_isSome_iff {C : Type} (codecs : List (Nat × IRoutableFactory C))
    (code : Nat) :
    ((Registry.build codecs).lookup code).isSome ↔ code ∈ codecs.map Prod.fst := by
  rw [lookup_isSome_iff, factoryCount_build]
  by_cases h : code ∈ codecs.map Prod.fst <;> simp [h]

/-- C9: in the registry built from any list of registrations, every declared
type code (one that some registration names) has exactly one factory and
`lookup` returns it, a factory that was registered under that code; the
outcome for a type code is "no factory" exactly when the code is not
declared, it is "decode failed" exactly when a factory was found and its
`decode` returned null, and the two outcomes are different values. -/
theorem registry_lookup {C : Type} (codecs : List (Nat × IRoutableFactory C)) (code : Nat)
    (buf : ByteBuffer) :
    (Registry.build codecs).factoryCount code = (if code ∈ codecs.map Prod.fst then 1 else 0)
    ∧ (((Registry.build codecs).lookup code).isSome ↔ code ∈ codecs.map Prod.fst)
    ∧ (∀ f, (Registry.build codecs).lookup code = some f → (code, f) ∈ codecs)
    ∧ ((Registry.build codecs).decode code buf = DecodeOutcome.noFactory
        ↔ code ∉ codecs.map Prod.fst)
    ∧ ((Registry.build codecs).decode code buf = DecodeOutcome.decodeFailed
        ↔ ∃ f, (Registry.build codecs).lookup code = some f ∧ (f.decode buf).1 = none)
    ∧ (DecodeOutcome.noFactory : DecodeOutcome C) ≠ DecodeOutcome.decodeFailed := by
  refine ⟨factoryCount_build codecs code, lookup_build_isSome_iff codecs code, ?_, ?_, ?_, ?_⟩
  · intro f hf
    have hmem := lookup_mem _ _ _ hf
    unfold Registry.build at hmem
    rcases mem_foldl_put codecs _ _ hmem with h | h
    · exact h
    · simp at h
  · rw [← lookup_build_isSome_iff]
    unfold Registry.decode
    cases hl : (Registry.build codecs).lookup code with
    | none => simp
    | some f =>
      cases hd : (f.decode buf).1 <;> simp [hd]
  · unfold Registry.decode
    cases hl : (Registry.build codecs).lookup code with
    | none => simp
    | some f =>
      cases hd : (f.decode buf).1 <;> simp [hd]
  · intro h
    cases h

/-! ## The handle recorder -/

theorem mem_foldl_register_handle (calls : List (Nat × MatchDataDetails))
    (t : HandleRecorder.Thread) (hbound : t.bound = true) (h : Nat) :
    (h ∈ (calls.foldl (fun t c => HandleRecorder.register_handle c.1 c.2 t) t).recorder.normal
      ↔ h ∈ t.recorder.normal ∨ (h, MatchDataDetails.Normal) ∈ calls)
    ∧ (h ∈ (calls.foldl (fun t c => HandleRecorder.register_handle c.1 c.2 t) t).recorder.cheap
      ↔ h ∈ t.recorder.cheap ∨ (h, MatchDataDetails.Cheap) ∈ calls) := by
  induction calls generalizing t with
  | nil => simp
  | cons c cs ih =>
    obtain ⟨handle, details⟩ := c
    have hstep : (HandleRecorder.register_handle handle details t).bound = true := by
      simp [HandleRecorder.register_handle, hbound]
    have hrec := ih (HandleRecorder.register_handle handle details t) hstep
    obtain ⟨hnormal, hcheap⟩ := hrec
    rw [List.foldl_cons]
    cases details with
    | Normal =>
      have hn : (HandleRecorder.register_handle handle MatchDataDetails.Normal t).recorder.normal
          = insert handle t.recorder.normal := by
        simp [HandleRecorder.register_handle, hbound, HandleRecorder.add]
      have hc : (HandleRecorder.register_handle handle MatchDataDetails.Normal t).recorder.cheap
          = t.recorder.cheap := by
        simp [HandleRecorder.register_handle, hbound, HandleRecorder.add]
      rw [hnormal, hcheap, hn, hc, Finset.mem_insert, List.mem_cons, List.mem_cons]
      simp only [Prod.mk.injEq, and_true, reduceCtorEq, and_false, false_or]
      constructor <;> tauto
    | Cheap =>
      have hn : (HandleRecorder.register_handle handle MatchDataDetails.Cheap t).recorder.normal
          = t.recorder.normal := by
        simp [HandleRecorder.register_handle, hbound, HandleRecorder.add]
      have hc : (HandleRecorder.register_handle handle MatchDataDetails.Cheap t).recorder.cheap
          = insert handle t.recorder.cheap := by
        simp [HandleRecorder.register_handle, hbound, HandleRecorder.add]
      rw [hnormal, hcheap, hn, hc, Finset.mem_insert, List.mem_cons, List.mem_cons]
      simp only [Prod.mk.injEq, and_true, reduceCtorEq, and_false, false_or]
      constructor <;> tauto

/-- C10: for every sequence of `register_handle` calls made while a `Binder`
binds a recorder, `get_normal_handles()` holds exactly the handles registered
with details `Normal` and `get_cheap_handles()` exactly those registered with
details `Cheap`, each set regardless of the other: the two tests give `{3, 7}`
with `{5}`, and `{3}` with `{3}`. -/
theorem recordAll_handles (calls : List (Nat × MatchDataDetails)) :
    (∀ h, h ∈ (recordAll calls).get_normal_handles ↔ (h, MatchDataDetails.Normal) ∈ calls)
    ∧ (∀ h, h ∈ (recordAll calls).get_cheap_handles ↔ (h, MatchDataDetails.Cheap) ∈ calls)
    ∧ test_can_record_both_normal_and_cheap_handles
        = recordAll [(3, MatchDataDetails.Normal), (5, MatchDataDetails.Cheap),
            (7, MatchDataDetails.Normal)]
    ∧ test_can_record_both_normal_and_cheap_handles.get_normal_handles = {3, 7}
    ∧ test_can_record_both_normal_and_cheap_handles.get_cheap_handles = {5}
    ∧ test_the_same_handle_can_be_in_both_normal_and_cheap_set
        = recordAll [(3, MatchDataDetails.Normal), (3, MatchDataDetails.Cheap)]
    ∧ test_the_same_handle_can_be_in_both_normal_and_cheap_set.get_normal_handles = {3}
    ∧ test_the_same_handle_can_be_in_both_normal_and_cheap_set.get_cheap_handles = {3} := by
  refine ⟨?_, ?_, rfl, by decide, by decide, rfl, by decide, by decide⟩
  · intro h
    have hmem := (mem_foldl_register_handle calls
      (HandleRecorder.bind HandleRecorder.empty) rfl h).1
    simpa [recordAll, HandleRecorder.unbind, HandleRecorder.get_normal_handles,
      HandleRecorder.bind, HandleRecorder.empty] using hmem
  · intro h
    have hmem := (mem_foldl_register_handle calls
      (HandleRecorder.bind HandleRecorder.empty) rfl h).2
    simpa [recordAll, HandleRecorder.unbind, HandleRecorder.get_cheap_handles,
      HandleRecorder.bind, HandleRecorder.empty] using hmem

/-! ## Copies of a hash table -/

theorem hashtable_find_insert_self {K V : Type} [DecidableEq K] (keyExtract : V → K)
    (t : hashtable V) (v : V) (hins : (t.insert keyExtract v).2 = true) :
    (t.insert keyExtract v).1.find keyExtract (keyExtract v) = some v := by
  unfold hashtable.insert at hins ⊢
  cases hfind : t.find keyExtract (keyExtract v) with
  | some x => simp [hfind] at hins
  | none =>
    unfold hashtable.find at hfind
    simp [hashtable.find, List.find?_append, hfind]

theorem hashtable_find_insert_of_some {K V : Type} [DecidableEq K] (keyExtract : V → K)
    (t : hashtable V) (w x : V) (key : K) (hfound : t.find keyExtract key = some x) :
    (t.insert keyExtract w).1.find keyExtract key = some x := by
  unfold hashtable.insert
  cases hfind : t.find keyExtract (keyExtract w) with
  | some y => exact hfound
  | none =>
    unfold hashtable.find at hfound
    simp [hashtable.find, List.find?_append, hfound]

theorem hashtable_find_insertAll_of_some {K V : Type} [DecidableEq K] (keyExtract : V → K)
    (t : hashtable V) (more : List V) (x : V) (key : K)
    (hfound : t.find keyExtract key = some x) :
    (t.insertAll keyExtract more).find keyExtract key = some x := by
  induction more generalizing t with
  | nil => exact hfound
  | cons w ws ih =>
    unfold hashtable.insertAll
    rw [List.foldl_cons]
    exact ih _ (hashtable_find_insert_of_some keyExtract t w x key hfound)

theorem hashtable_find_copy {K V : Type} [DecidableEq K] (keyExtract : V → K)
    (t : hashtable V) (key : K) :
    t.copy.find keyExtract key = t.find keyExtract key := rfl

/-- C11: for every hash table, every value `v` that an `insert` call stored in
it, and every run of `insert` calls after that one, a copy of the table finds
`v` itself under the key of `v`, and the table that was copied still finds `v`
itself under that key once the copy has been made. -/
theorem hashtable_copy_finds_inserted {K V : Type} [DecidableEq K] (keyExtract : V → K)
    (t : hashtable V) (v : V) (more : List V)
    (hins : (t.insert keyExtract v).2 = true) :
    (((t.insert keyExtract v).1.insertAll keyExtract more).copy).find keyExtract (keyExtract v)
      = some v
    ∧ ((t.insert keyExtract v).1.insertAll keyExtract more).find keyExtract (keyExtract v)
      = some v := by
  have hself := hashtable_find_insert_self keyExtract t v hins
  have hlater := hashtable_find_insertAll_of_some keyExtract _ more v _ hself
  exact ⟨by rw [hashtable_find_copy]; exact hlater, hlater⟩

/-- C11 at the two tests: the set table holding 42 and the vector table holding
`{2, 4, 6}` under key 2; the copy and the table copied both find the value, and
the values the tests compare are 42 and 6. -/
theorem hashtable_copy_finds_inserted_witness :
    ((((hashtable.create 100 : hashtable Int).insert Identity 42).1.insertAll Identity []).copy).find
        Identity (Identity 42) = some 42
    ∧ ((((hashtable.create 100 : hashtable (List Int)).insert FirstInVector [2, 4, 6]).1.insertAll
        FirstInVector []).copy).find FirstInVector (FirstInVector [2, 4, 6]) = some [2, 4, 6]
    ∧ (((hashtable.create 100 : hashtable (List Int)).insert FirstInVector [2, 4, 6]).1.insertAll
        FirstInVector []).find FirstInVector (FirstInVector [2, 4, 6]) = some [2, 4, 6]
    ∧ test_hashtable_int_can_be_copied = some 42
    ∧ test_hashtable_vector_can_be_copied = (some 6, some 6) :=
  ⟨(hashtable_copy_finds_inserted Identity (hashtable.create 100) (42 : Int) [] rfl).1,
   (hashtable_copy_finds_inserted FirstInVector (hashtable.create 100) [2, 4, 6] [] rfl).1,
   (hashtable_copy_finds_inserted FirstInVector (hashtable.create 100) [2, 4, 6] [] rfl).2,
   rfl, rfl⟩

/-! ## The size setter on both ways out of `decodeMessage` -/

theorem decodeMessage_approxSizeCalls {P ε : Type} (fresh : DocumentMessage P)
    (decodeInto : DocumentMessage P → ByteBuffer → IntoResult P ε) (buf : ByteBuffer) :
    (decodeMessage fresh decodeInto buf).approxSizeCalls
      = [approxSizeDelta (decodeInto fresh buf).buf.getPos buf.getPos] := by
  cases hr : (decodeInto fresh buf).raised <;>
    simp only [decodeMessage, hr, ScopedApproxSizeSetter.storedSize,
      ScopedApproxSizeSetter.create]

theorem consumeAllThenRaise_pos {P ε : Type} (e : ε) (msg : DocumentMessage P)
    (data : List Nat) :
    (consumeAllThenRaise e msg { data := data, pos := 0 }).buf.getPos = data.length := by
  simp [consumeAllThenRaise, ByteBuffer.incPos, ByteBuffer.getRemaining, ByteBuffer.getPos]

theorem approxSizeDelta_two_pow_32 : approxSizeDelta 4294967296 0 = 0 := by
  unfold approxSizeDelta
  norm_num

theorem decodeMessage_consumeAllThenRaise_calls {P ε : Type} (e : ε) (fresh : DocumentMessage P)
    (data : List Nat) (hlen : data.length = 4294967296) :
    (decodeMessage fresh (consumeAllThenRaise e) { data := data, pos := 0 }).approxSizeCalls
      = [0] := by
  rw [decodeMessage_approxSizeCalls, consumeAllThenRaise_pos, hlen]
  exact congrArg (fun x => [x]) approxSizeDelta_two_pow_32

theorem length_replicate_two_pow_32 : (List.replicate 4294967296 0).length = 4294967296 :=
  List.length_replicate 4294967296 0

/-- C12, as stated, fails in its last part: on a buffer of `2^32` bytes a
`decodeInto` that reads all of them and then raises leaves the read position at
`4294967296`, having started from `0`, and the one value set as approximate size
is `0`. -/
theorem decodeMessage_failing_size_wraps :
    (@consumeAllThenRaise Unit DecodeError DecodeError.bufferOutOfBounds
        { approxSize := 1024, body := () }
        { data := List.replicate 4294967296 0, pos := 0 }).raised
      = some DecodeError.bufferOutOfBounds
    ∧ (@consumeAllThenRaise Unit DecodeError DecodeError.bufferOutOfBounds
        { approxSize := 1024, body := () }
        { data := List.replicate 4294967296 0, pos := 0 }).buf.getPos = 4294967296
    ∧ (@decodeMessage Unit DecodeError { approxSize := 1024, body := () }
        (consumeAllThenRaise DecodeError.bufferOutOfBounds)
        { data := List.replicate 4294967296 0, pos := 0 }).approxSizeCalls = [0] :=
  ⟨rfl,
   (consumeAllThenRaise_pos _ _ _).trans length_replicate_two_pow_32,
   decodeMessage_consumeAllThenRaise_calls _ _ _ length_replicate_two_pow_32⟩

/-- C12 (amended): for every call of `decodeMessage` the approximate size is
set exactly once, whether `decodeInto` returns normally or fails part-way with
an exception, and the value set is the read position that `decodeInto` left
minus the read position before it, computed modulo `2^64` and cut to 32 bits.
On the normal path the returned message carries that value; in the failing
case the exception leaves `decodeMessage`, and the value set is the read
position at the point of failure minus the read position before `decodeInto`
whenever the position did not move backwards and moved by fewer than `2^32`
bytes. -/
theorem decodeMessage_sets_approxSize_once {P ε : Type} (fresh : DocumentMessage P)
    (decodeInto : DocumentMessage P → ByteBuffer → IntoResult P ε) (buf : ByteBuffer) :
    (decodeMessage fresh decodeInto buf).approxSizeCalls.length = 1
    ∧ (decodeMessage fresh decodeInto buf).approxSizeCalls
        = [approxSizeDelta (decodeInto fresh buf).buf.getPos buf.getPos]
    ∧ ((decodeInto fresh buf).raised = none →
        ∃ m, (decodeMessage fresh decodeInto buf).result = Except.ok (some m)
          ∧ [m.approxSize] = (decodeMessage fresh decodeInto buf).approxSizeCalls)
    ∧ (∀ e, (decodeInto fresh buf).raised = some e →
        (decodeMessage fresh decodeInto buf).result = Except.error e
        ∧ (buf.getPos ≤ (decodeInto fresh buf).buf.getPos →
            (decodeInto fresh buf).buf.getPos - buf.getPos < 2 ^ 32 →
            (decodeMessage fresh decodeInto buf).approxSizeCalls
              = [(decodeInto fresh buf).buf.getPos - buf.getPos])) := by
  have hcalls := decodeMessage_approxSizeCalls fresh decodeInto buf
  refine ⟨by rw [hcalls]; rfl, hcalls, ?_, ?_⟩
  · intro hnormal
    rw [hcalls]
    simp only [decodeMessage, hnormal, ScopedApproxSizeSetter.destroy,
      ScopedApproxSizeSetter.storedSize, ScopedApproxSizeSetter.create,
      DocumentMessage.setApproxSize]
    exact ⟨_, rfl, rfl⟩
  · intro e hraised
    refine ⟨decodeMessage_result_of_raised fresh decodeInto buf e hraised, ?_⟩
    intro hfwd hsmall
    rw [hcalls, approxSizeDelta_of_forward _ _ hfwd hsmall]

/-- The amended C12 on a put message cut short: the identifier `AB` and the
document type `T` are read, the field data announce five bytes where one
remains, the read fails at position 15, and the one value set as approximate
size is 15. -/
theorem decodeMessage_sets_approxSize_once_witness :
    (decodeMessage
        { approxSize := 1024,
          body := { documentId := { text := [] }, documentType := [], payload := [] } }
        (PutDocumentMessageFactory.decodeInto true (catalogOf [[84]]))
        { data := [0, 0, 0, 2, 65, 66, 0, 0, 0, 1, 84, 0, 0, 0, 5, 1], pos := 0 }).result
      = Except.error DecodeError.bufferOutOfBounds
    ∧ (decodeMessage
        { approxSize := 1024,
          body := { documentId := { text := [] }, documentType := [], payload := [] } }
        (PutDocumentMessageFactory.decodeInto true (catalogOf [[84]]))
        { data := [0, 0, 0, 2, 65, 66, 0, 0, 0, 1, 84, 0, 0, 0, 5, 1], pos := 0 }).approxSizeCalls
      = [15] :=
  ⟨((decodeMessage_sets_approxSize_once
      { approxSize := 1024,
        body := { documentId := { text := [] }, documentType := [], payload := [] } }
      (PutDocumentMessageFactory.decodeInto true (catalogOf [[84]]))
      { data := [0, 0, 0, 2, 65, 66, 0, 0, 0, 1, 84, 0, 0, 0, 5, 1], pos := 0 }).2.2.2
      DecodeError.bufferOutOfBounds rfl).1,
   ((decodeMessage_sets_approxSize_once
      { approxSize := 1024,
        body := { documentId := { text := [] }, documentType := [], payload := [] } }
      (PutDocumentMessageFactory.decodeInto true (catalogOf [[84]]))
      { data := [0, 0, 0, 2, 65, 66, 0, 0, 0, 1, 84, 0, 0, 0, 5, 1], pos := 0 }).2.2.2
      DecodeError.bufferOutOfBounds rfl).2 (by decide) (by decide)⟩

/-! ## The three decoders never return null -/

theorem decodeMessage_result_error_iff {P ε : Type} (fresh : DocumentMessage P)
    (decodeInto : DocumentMessage P → ByteBuffer → IntoResult P ε) (buf : ByteBuffer) (e : ε) :
    (decodeMessage fresh decodeInto buf).result = Except.error e
      ↔ (decodeInto fresh buf).raised = some e := by
  cases hr : (decodeInto fresh buf).raised with
  | none =>
    obtain ⟨m, hm, _⟩ := decodeMessage_result_of_normal fresh decodeInto buf hr
    rw [hm]
    simp
  | some e2 =>
    rw [decodeMessage_result_of_raised fresh decodeInto buf e2 hr]
    simp

/-- C13: for every buffer on which `decodeInto` returns normally,
`decodeMessage`, and with it `doDecode` of the put, remove and update
factories, returns a non-null message of the requested type.  None of them
returns null on any buffer, and each is left by an exception exactly when
`decodeInto` raised that exception. -/
theorem decodeMessage_returns_message {P ε : Type} (fresh : DocumentMessage P)
    (decodeInto : DocumentMessage P → ByteBuffer → IntoResult P ε) (buf : ByteBuffer)
    (hnormal : (decodeInto fresh buf).raised = none) :
    (∃ m : DocumentMessage P, (decodeMessage fresh decodeInto buf).result = Except.ok (some m))
    ∧ (∃ m : DocumentMessage P,
        (UpdateDocumentMessageFactory.doDecode fresh decodeInto buf).result = Except.ok (some m))
    ∧ (∀ (freshPut : DocumentMessage PutDocumentMessage)
        (intoPut : DocumentMessage PutDocumentMessage → ByteBuffer →
          IntoResult PutDocumentMessage ε),
        (intoPut freshPut buf).raised = none →
        ∃ m : DocumentMessage PutDocumentMessage,
          (PutDocumentMessageFactory.doDecode freshPut intoPut buf).result = Except.ok (some m))
    ∧ (∀ (freshRemove : DocumentMessage RemoveDocumentMessage)
        (intoRemove : DocumentMessage RemoveDocumentMessage → ByteBuffer →
          IntoResult RemoveDocumentMessage ε),
        (intoRemove freshRemove buf).raised = none →
        ∃ m : DocumentMessage RemoveDocumentMessage,
          (RemoveDocumentMessageFactory.doDecode freshRemove intoRemove buf).result
            = Except.ok (some m))
    ∧ (∀ (into : DocumentMessage P → ByteBuffer → IntoResult P ε) (b : ByteBuffer),
        (decodeMessage fresh into b).result ≠ Except.ok none
        ∧ (UpdateDocumentMessageFactory.doDecode fresh into b).result ≠ Except.ok none
        ∧ ∀ e, (UpdateDocumentMessageFactory.doDecode fresh into b).result = Except.error e
            ↔ (into fresh b).raised = some e)
    ∧ (∀ (freshPut : DocumentMessage PutDocumentMessage)
        (intoPut : DocumentMessage PutDocumentMessage → ByteBuffer →
          IntoResult PutDocumentMessage ε) (b : ByteBuffer),
        (PutDocumentMessageFactory.doDecode freshPut intoPut b).result ≠ Except.ok none
        ∧ ∀ e, (PutDocumentMessageFactory.doDecode freshPut intoPut b).result = Except.error e
            ↔ (intoPut freshPut b).raised = some e)
    ∧ (∀ (freshRemove : DocumentMessage RemoveDocumentMessage)
        (intoRemove : DocumentMessage RemoveDocumentMessage → ByteBuffer →
          IntoResult RemoveDocumentMessage ε) (b : ByteBuffer),
        (RemoveDocumentMessageFactory.doDecode freshRemove intoRemove b).result ≠ Except.ok none
        ∧ ∀ e, (RemoveDocumentMessageFactory.doDecode freshRemove intoRemove b).result
              = Except.error e
            ↔ (intoRemove freshRemove b).raised = some e) := by
  obtain ⟨m, hm, _⟩ := decodeMessage_result_of_normal fresh decodeInto buf hnormal
  refine ⟨⟨m, hm⟩, ⟨m, hm⟩, ?_, ?_, ?_, ?_, ?_⟩
  · intro freshPut intoPut hput
    obtain ⟨mp, hmp, _⟩ := decodeMessage_result_of_normal freshPut intoPut buf hput
    exact ⟨mp, hmp⟩
  · intro freshRemove intoRemove hremove
    obtain ⟨mr, hmr, _⟩ := decodeMessage_result_of_normal freshRemove intoRemove buf hremove
    exact ⟨mr, hmr⟩
  · intro into b
    exact ⟨decodeMessage_result_ne_null fresh into b, decodeMessage_result_ne_null fresh into b,
      fun e => decodeMessage_result_error_iff fresh into b e⟩
  · intro freshPut intoPut b
    exact ⟨decodeMessage_result_ne_null freshPut intoPut b,
      fun e => decodeMessage_result_error_iff freshPut intoPut b e⟩
  · intro freshRemove intoRemove b
    exact ⟨decodeMessage_result_ne_null freshRemove intoRemove b,
      fun e => decodeMessage_result_error_iff freshRemove intoRemove b e⟩

/-- C13 at the encoded remove message for `AB`, on which the `decodeInto` of
the remove factory returns normally: `decodeMessage` returns a message. -/
theorem decodeMessage_returns_message_witness :
    (RemoveDocumentMessageFactory.decodeInto true
        { approxSize := 1024, body := { documentId := { text := [] } } }
        { data := [0, 0, 0, 2, 65, 66], pos := 0 }).raised = none
    ∧ ∃ m : DocumentMessage RemoveDocumentMessage,
        (decodeMessage { approxSize := 1024, body := { documentId := { text := [] } } }
          (RemoveDocumentMessageFactory.decodeInto true)
          { data := [0, 0, 0, 2, 65, 66], pos := 0 }).result = Except.ok (some m) :=
  ⟨rfl, (decodeMessage_returns_message
    { approxSize := 1024, body := { documentId := { text := [] } } }
    (RemoveDocumentMessageFactory.decodeInto true)
    { data := [0, 0, 0, 2, 65, 66], pos := 0 } rfl).1⟩

/-! ## The value the size setter stores -/

/-- C14: the value a `ScopedApproxSizeSetter` stores is the read position at
destruction minus the read position at construction, taken modulo `2^64` and
then modulo `2^32`; it is an unsigned 32-bit value, for positions that are
`size_t` values it is the wrapping `size_t` subtraction cut to 32 bits, and it
is what the destructor puts on the message.  It equals the true difference of
the positions exactly when the read position did not move backwards and the
difference is below `2^32`. -/
theorem storedSize_eq_wrapped_delta (before after : ByteBuffer) :
    (((ScopedApproxSizeSetter.create before).storedSize after : Nat) : Int)
      = (((after.getPos : Int) - (before.getPos : Int)) % 2 ^ 64) % 2 ^ 32
    ∧ (ScopedApproxSizeSetter.create before).storedSize after < 2 ^ 32
    ∧ ((((ScopedApproxSizeSetter.create before).storedSize after : Nat) : Int)
          = (after.getPos : Int) - (before.getPos : Int)
        ↔ before.getPos ≤ after.getPos ∧ after.getPos - before.getPos < 2 ^ 32)
    ∧ (before.getPos < 2 ^ 64 → after.getPos < 2 ^ 64 →
        (ScopedApproxSizeSetter.create before).storedSize after
          = ((after.getPos + 2 ^ 64 - before.getPos) % 2 ^ 64) % 2 ^ 32)
    ∧ (∀ (P : Type) (msg : DocumentMessage P),
        ((ScopedApproxSizeSetter.create before).destroy msg after).approxSize
          = (ScopedApproxSizeSetter.create before).storedSize after) := by
  simp only [ScopedApproxSizeSetter.storedSize, ScopedApproxSizeSetter.create,
    ScopedApproxSizeSetter.destroy, DocumentMessage.setApproxSize, approxSizeDelta]
  refine ⟨?_, ?_, ?_, ?_, ?_⟩
  · omega
  · omega
  · constructor
    · intro h
      omega
    · intro h
      omega
  · intro h1 h2
    omega
  · intro P msg
    trivial

/-- C14 at three pairs of positions: from 2 to 5 the value is the difference 3,
from 4 back to 0 it is `2^32 - 4`, and from 0 to `2^32 + 5` it is 5. -/
theorem storedSize_eq_wrapped_delta_witness :
    (ScopedApproxSizeSetter.create { data := [1, 2, 3, 4, 5], pos := 2 }).storedSize
        { data := [1, 2, 3, 4, 5], pos := 5 } = 3
    ∧ (ScopedApproxSizeSetter.create { data := [1, 2, 3, 4, 5], pos := 4 }).storedSize
        { data := [1, 2, 3, 4, 5], pos := 0 } = 4294967292
    ∧ (ScopedApproxSizeSetter.create { data := List.replicate 4294967301 0, pos := 0 }).storedSize
        { data := List.replicate 4294967301 0, pos := 4294967301 } = 5 := by
  have h1 := (storedSize_eq_wrapped_delta { data := [1, 2, 3, 4, 5], pos := 2 }
    { data := [1, 2, 3, 4, 5], pos := 5 }).1
  have h2 := (storedSize_eq_wrapped_delta { data := [1, 2, 3, 4, 5], pos := 4 }
    { data := [1, 2, 3, 4, 5], pos := 0 }).1
  have h3 := (storedSize_eq_wrapped_delta { data := List.replicate 4294967301 0, pos := 0 }
    { data := List.replicate 4294967301 0, pos := 4294967301 }).1
  simp only [ByteBuffer.getPos] at h1 h2 h3
  refine ⟨?_, ?_, ?_⟩ <;> omega

end Vespa
